import Mathlib

/-!
Verification of the Nipkow-disk display driver (src/nipkov/nipkov.h).

The header declares the configuration constants, the double-buffered
framebuffer and the global state of the rotation-synchronized pixel
streaming engine.  Pure constants and initializers are embedded directly
from the header; the interrupt handlers and loader routines whose bodies
live outside the header are modelled from the design specification, each
such definition carrying a doc comment that says so.
-/

namespace Nipkov

/-! ## Constants from src/nipkov/nipkov.h -/

/-- Number of test pictures bundled in program memory (nipkov.h line 57). -/
def numberpics : Nat := 5

/-- Size of one frame in bytes: 32*32 pixels = 1024 pixels at 3 bytes each
(nipkov.h line 67, a preprocessor define with literal value 3072). -/
def FRAMESIZE : Nat := 3072

/-- Number of pixels in a frame, 32*32 = 1024 (nipkov.h line 68). -/
def pixelsframe : Nat := 1024

/-- Double-buffer size (nipkov.h line 72). -/
def BUFFERSIZE : Nat := FRAMESIZE * 2

/-- Half of the double buffer (nipkov.h line 73). -/
def HALFBUF : Nat := FRAMESIZE

/-- The number of bytes actually allocated for the framebuffer array:
the header declares it as BUFFERSIZE + 100 bytes, with the comment that a
few pixels are added in case overruns occur (nipkov.h line 76). -/
def framebufferSize : Nat := BUFFERSIZE + 100

/-- Modelled from the spec: one block-storage Frame record holds
pixel-count times 3 bytes (the storage layout itself is outside the
header). -/
def frameRecordBytes : Nat := pixelsframe * 3

/-! ## Global state declared in src/nipkov/nipkov.h -/

/-- The mutable global variables of nipkov.h that the claims concern.
Field names follow the header; the framebuffer contents are modelled
separately where needed. -/
structure Globals where
  adjust_cycles : Nat
  PeriodBetweenPulses : Nat
  LastMeasured : Nat
  pixerror : Int
  cycles : Nat
  pixel : Nat
  startpix : Nat
  loadbuffer_part0 : Bool
  loadbuffer_part1 : Bool
  mode : Nat
  pic : Nat
  frames : Nat
  play : Bool
  deriving Repr, DecidableEq

/-- The initial global state, taken from the initializers in the header
(nipkov.h lines 69, 77-96); C++ globals without an explicit initializer
have static storage duration and are zero-initialized. -/
def initGlobals : Globals :=
  { adjust_cycles := 94
  , PeriodBetweenPulses := 1000
  , LastMeasured := 0
  , pixerror := 0
  , cycles := 0
  , pixel := 0
  , startpix := 0
  , loadbuffer_part0 := false
  , loadbuffer_part1 := false
  , mode := 1
  , pic := 1
  , frames := 0
  , play := true }

/-! ## Pixel Clock model (modelled from the spec; the tick handler body
is not in the header) -/

/-- Modelled from the spec: one Pixel Clock firing advances the pixel
index; on reaching the pixel count it wraps around to 0.  Returns the new
index together with a flag saying whether this tick wrapped. -/
def pixelTickW (p : Nat) : Nat × Bool :=
  if p + 1 = pixelsframe then (0, true) else (p + 1, false)

/-- Run k consecutive Pixel Clock ticks starting at index p, returning
the final pixel index and the number of wraparounds that occurred. -/
def runTicks : Nat → Nat → Nat × Nat
  | 0, p => (p, 0)
  | Nat.succ k, p =>
      let s := pixelTickW p
      let r := runTicks k s.1
      (r.1, r.2 + (if s.2 then 1 else 0))

theorem pixelTickW_fst (p : Nat) (hp : p < pixelsframe) :
    (pixelTickW p).1 = (p + 1) % pixelsframe := by
  unfold pixelTickW
  by_cases h : p + 1 = pixelsframe
  · simp [h]
  · have h1 : p + 1 < pixelsframe := by omega
    simp [h, Nat.mod_eq_of_lt h1]

theorem runTicks_closed (k : Nat) :
    ∀ p, p < pixelsframe →
      runTicks k p = ((p + k) % pixelsframe, (p + k) / pixelsframe) := by
  induction k with
  | zero =>
      intro p hp
      simp [runTicks, Nat.mod_eq_of_lt hp, Nat.div_eq_of_lt hp]
  | succ k ih =>
      intro p hp
      unfold runTicks
      by_cases h : p + 1 = pixelsframe
      · have h0 : (0 : Nat) < pixelsframe := by decide
        rw [show pixelTickW p = (0, true) from by simp [pixelTickW, h]]
        simp only [ih 0 h0]
        have hmod : (p + (k + 1)) % pixelsframe = k % pixelsframe := by
          have : p + (k + 1) = pixelsframe + k := by omega
          rw [this, Nat.add_comm pixelsframe k, Nat.add_mod_right]
        have hdiv : (p + (k + 1)) / pixelsframe = k / pixelsframe + 1 := by
          have : p + (k + 1) = k + pixelsframe := by omega
          rw [this, Nat.add_div_right _ h0]
        simp [hmod, hdiv, Nat.zero_add]
      · have h1 : p + 1 < pixelsframe := by omega
        rw [show pixelTickW p = (p + 1, false) from by simp [pixelTickW, h]]
        simp only [ih (p + 1) h1]
        have : p + 1 + k = p + (k + 1) := by omega
        simp [this]

/-! ## Drift-correction model (modelled from the spec; the period
recomputation body is not in the header) -/

/-- Modelled from the spec: the per-pixel period for the next revolution
is the measured revolution period P plus the carried pixel-error
residual, divided by the pixel count N. -/
def perPixelPeriod (P N err : Nat) : Nat := (P + err) / N

/-- Modelled from the spec: the residual of that division is deferred to
the following revolution rather than dropped. -/
def nextErr (P N err : Nat) : Nat := (P + err) % N

/-- The pixel-error residual carried after k revolutions of steady
period P, starting from zero error. -/
def errAfter (P N : Nat) : Nat → Nat
  | 0 => 0
  | Nat.succ k => nextErr P N (errAfter P N k)

/-! ## DAC Output Mapper model (modelled from the spec; the mapper body
is not in the header) -/

/-- A pixel: three channel intensities as read from storage. -/
structure Pixel where
  red : Nat
  green : Nat
  blue : Nat
  deriving Repr, DecidableEq

/-- Modelled from the spec: the DAC Output Mapper clamps a channel value
into the 6-bit DAC range 0..63 at the point of write; an out-of-range
value is clamped, never reported as an error. -/
def dacClamp (v : Nat) : Nat := min v 63

/-- Modelled from the spec: writing one pixel sends each clamped channel
to its own output port group. -/
def dacWrite (px : Pixel) : Nat × Nat × Nat :=
  (dacClamp px.red, dacClamp px.green, dacClamp px.blue)

/-! ## Pulse Timer validation and idle model (modelled from the spec;
Pulse_Event is only a prototype in the header) -/

/-- Modelled from the spec: on a sync pulse the Pulse Timer accepts the
newly measured period only when it is plausible (between the given lower
and upper bounds); an implausible near-zero or absurdly large period is
rejected and the previous period kept. -/
def acceptPeriod (minP maxP old p : Nat) : Nat :=
  if minP ≤ p ∧ p ≤ maxP then p else old

/-- What one Pixel Clock firing puts on the DAC ports: either one pixel
or nothing (idle / blank). -/
inductive DacOut where
  | pix (r g b : Nat)
  | idle
  deriving Repr, DecidableEq

/-- Modelled from the spec: the Pixel Clock emits only while a pulse has
been seen within the expected window; once the window is exceeded the
output idles until a valid period is re-established. -/
def pixelClockOutput (timeSincePulse window : Nat) (px : Pixel) : DacOut :=
  if timeSincePulse ≤ window then
    DacOut.pix (dacClamp px.red) (dacClamp px.green) (dacClamp px.blue)
  else DacOut.idle

/-! ## Double-buffer swap model (modelled from the spec; the swap logic
lives in the .ino handlers, with startpix and HALFBUF from the header) -/

/-- The buffer-coordination state: startpix is the byte offset of the
active half-buffer region, standbyComplete says the loader finished
filling the standby region, activeComplete says the active region is
fully written. -/
structure BufState where
  startpix : Nat
  standbyComplete : Bool
  activeComplete : Bool
  deriving Repr, DecidableEq

/-- The opposite half-buffer offset: 0 and HALFBUF alternate. -/
def otherHalf (sp : Nat) : Nat := if sp = 0 then HALFBUF else 0

/-- Modelled from the spec: at pixel-index wraparound the buffer roles
swap only when the loader has completed the standby fill; otherwise the
previous active region is re-displayed for another revolution and
nothing changes. -/
def swapAtWrap (s : BufState) : BufState :=
  if s.standbyComplete then
    { startpix := otherHalf s.startpix
    , standbyComplete := false
    , activeComplete := true }
  else s

/-- Modelled from the spec: the Frame Loader finishing a standby fill
marks the standby region complete and touches nothing else. -/
def loaderFinish (s : BufState) : BufState :=
  { s with standbyComplete := true }

/-! ## Frame Loader / read path round trip (modelled from the spec;
only the framebuffer array itself is declared in the header) -/

/-- Modelled from the spec: the Frame Loader copies one Frame record
(FRAMESIZE bytes) from storage into the half-buffer region starting at
byte offset base, leaving all other buffer bytes untouched. -/
def loadFrame (buf : Nat → Nat) (base : Nat) (stored : Nat → Nat) : Nat → Nat :=
  fun i => if base ≤ i ∧ i < base + FRAMESIZE then stored (i - base) else buf i

/-- Modelled from the spec: the Pixel Clock reads pixel p as the three
consecutive bytes at offset base + 3p of the framebuffer. -/
def readPixel (buf : Nat → Nat) (base p : Nat) : Pixel :=
  { red := buf (base + 3 * p)
  , green := buf (base + 3 * p + 1)
  , blue := buf (base + 3 * p + 2) }

/-! ## System operations for the phase-offset constant (modelled from
the spec) -/

/-- The state-changing events of the engine: a sync pulse carrying the
current timestamp, a pixel-clock tick, the loader finishing a buffer
half, and the three playback-controller inputs. -/
inductive Op where
  | pulseEvent (now : Nat)
  | pixelTickOp
  | loadDoneOp
  | playStopOp
  | modeSelectOp (m : Nat)
  | nextTrackOp (npics : Nat)
  deriving Repr, DecidableEq

/-- Modelled from the spec: the effect of each engine event on the
global state.  The pulse event measures the elapsed time and accepts it
if plausible; the tick advances the pixel index with wraparound and, on
wraparound, swaps the active half-buffer offset; the loader clears the
pre-load flags; the playback inputs toggle play, select the mode and
advance the picture index.  No event touches adjust_cycles: the phase
offset is a manually tuned configuration constant. -/
def applyOp (op : Op) (g : Globals) : Globals :=
  match op with
  | Op.pulseEvent now =>
      { g with
        PeriodBetweenPulses :=
          acceptPeriod 1 1000000 g.PeriodBetweenPulses (now - g.LastMeasured)
      , LastMeasured := now }
  | Op.pixelTickOp =>
      { g with
        pixel := (pixelTickW g.pixel).1
      , startpix := if (pixelTickW g.pixel).2 then otherHalf g.startpix
                    else g.startpix }
  | Op.loadDoneOp =>
      { g with loadbuffer_part0 := false, loadbuffer_part1 := false }
  | Op.playStopOp => { g with play := ! g.play }
  | Op.modeSelectOp m => { g with mode := m, frames := 0 }
  | Op.nextTrackOp npics =>
      { g with pic := if g.pic + 1 ≤ npics then g.pic + 1 else 1 }

/-! ## Claim theorems -/

/-- Claim C1, counterexample: the framebuffer storage is NOT exactly
2 × FRAMESIZE bytes — the header allocates BUFFERSIZE + 100 bytes. -/
theorem C1_counterexample : ¬ framebufferSize = 2 * FRAMESIZE := by
  decide

/-- Claim C1, amended: the framebuffer storage allocated once at startup
has size 2 × FRAMESIZE + 100 bytes — two Frame slots plus a 100-byte
overrun margin. -/
theorem C1_amended_size : framebufferSize = 2 * FRAMESIZE + 100 := by
  decide

/-- Claim C2: a Frame holds exactly pixelsframe = 1024 pixels at 3 bytes
per pixel, FRAMESIZE = pixelsframe × 3 = 3072 bytes, one block-storage
Frame record equals FRAMESIZE bytes, and the half-buffer slot equals one
Frame. -/
theorem C2_frame_size :
    pixelsframe = 1024 ∧ FRAMESIZE = pixelsframe * 3 ∧ FRAMESIZE = 3072 ∧
    frameRecordBytes = FRAMESIZE ∧ HALFBUF = FRAMESIZE := by
  decide

/-- Claim C10: the initial global state has picture mode (mode = 1),
picture index pic = 1, play = true, frame counter 0, pixel index 0, both
double-buffer pre-load flags cleared, and default inter-pulse period
1000 µs (which is nonzero). -/
theorem C10_initial_state :
    initGlobals.mode = 1 ∧ initGlobals.pic = 1 ∧
    initGlobals.play = true ∧ initGlobals.frames = 0 ∧
    initGlobals.pixel = 0 ∧
    initGlobals.loadbuffer_part0 = false ∧
    initGlobals.loadbuffer_part1 = false ∧
    initGlobals.PeriodBetweenPulses = 1000 ∧
    0 < initGlobals.PeriodBetweenPulses := by
  decide

/-- Claim C3: starting from any index below pixelsframe the pixel index
stays in [0, pixelsframe) under any number of Pixel Clock ticks, and
exactly pixelsframe consecutive ticks from index 0 produce exactly one
wraparound and return the index to 0. -/
theorem C3_pixel_index_wrap :
    (∀ k p, p < pixelsframe → (runTicks k p).1 < pixelsframe) ∧
    runTicks pixelsframe 0 = (0, 1) := by
  constructor
  · intro k p hp
    rw [runTicks_closed k p hp]
    exact Nat.mod_lt _ (by decide)
  · rw [runTicks_closed pixelsframe 0 (by decide)]
    decide

/-- Claim C3 witness: concrete instances of both conjuncts. -/
theorem C3_pixel_index_wrap_witness :
    (runTicks 5 3).1 < pixelsframe ∧ runTicks pixelsframe 0 = (0, 1) :=
  ⟨C3_pixel_index_wrap.1 5 3 (by decide), C3_pixel_index_wrap.2⟩

/-- Claim C4: for every measured revolution period P and positive pixel
count N, the per-pixel period accounts exactly for the whole revolution
period plus the carried error (nothing is dropped), the per-revolution
residual is below N, the per-pixel period is within one time unit of the
exact ratio P / N, and the cumulative residual after any number k of
revolutions stays below N — it does not grow unboundedly. -/
theorem C4_drift_bounded (P N : Nat) (hN : 0 < N) :
    (∀ err, N * perPixelPeriod P N err + nextErr P N err = P + err) ∧
    (∀ err, nextErr P N err < N) ∧
    (∀ err, err < N →
      P < N * perPixelPeriod P N err + N ∧
      N * perPixelPeriod P N err < P + N) ∧
    (∀ k, errAfter P N k < N) := by
  have hacct : ∀ err, N * perPixelPeriod P N err + nextErr P N err = P + err := by
    intro err
    unfold perPixelPeriod nextErr
    exact Nat.div_add_mod (P + err) N
  have hmod : ∀ err, nextErr P N err < N := by
    intro err
    exact Nat.mod_lt _ hN
  refine ⟨hacct, hmod, ?_, ?_⟩
  · intro err herr
    have h1 := hacct err
    have h2 := hmod err
    omega
  · intro k
    cases k with
    | zero => simpa [errAfter] using hN
    | succ k => exact hmod _

/-- Claim C4 witness: the theorem instantiated at P = 33000 µs,
N = pixelsframe, err = 7, k = 100. -/
theorem C4_drift_bounded_witness :
    (Nat.mul pixelsframe (perPixelPeriod 33000 pixelsframe 7) +
      nextErr 33000 pixelsframe 7 = 33000 + 7) ∧
    errAfter 33000 pixelsframe 100 < pixelsframe := by
  have h := C4_drift_bounded 33000 pixelsframe (by decide)
  exact ⟨h.1 7, h.2.2.2 100⟩

/-- Claim C5: every channel value emitted through the DAC Output Mapper
lies in the 6-bit range 0..63; an in-range value passes through
unchanged, and an out-of-range value is clamped to 63 rather than
propagated as an error. -/
theorem C5_dac_clamp (px : Pixel) :
    (dacWrite px).1 ≤ 63 ∧ (dacWrite px).2.1 ≤ 63 ∧ (dacWrite px).2.2 ≤ 63 ∧
    (px.red ≤ 63 → (dacWrite px).1 = px.red) ∧
    (px.green ≤ 63 → (dacWrite px).2.1 = px.green) ∧
    (px.blue ≤ 63 → (dacWrite px).2.2 = px.blue) ∧
    (63 < px.red → (dacWrite px).1 = 63) := by
  unfold dacWrite dacClamp
  refine ⟨Nat.min_le_right _ _, Nat.min_le_right _ _, Nat.min_le_right _ _,
    ?_, ?_, ?_, ?_⟩ <;> intro h <;> simp <;> omega

/-- Claim C5 witness: the theorem at the concrete pixel (200, 17, 64). -/
theorem C5_dac_clamp_witness :
    (dacWrite ⟨200, 17, 64⟩).1 ≤ 63 ∧
    ((17 : Nat) ≤ 63 → (dacWrite ⟨200, 17, 64⟩).2.1 = 17) ∧
    ((63 : Nat) < 200 → (dacWrite ⟨200, 17, 64⟩).1 = 63) := by
  have h := C5_dac_clamp ⟨200, 17, 64⟩
  exact ⟨h.1, h.2.2.2.2.1, h.2.2.2.2.2.2⟩

/-- Claim C6: if the previously held period is plausible then after any
sync pulse — whatever period it measures — the held period is still
plausible, an implausible measurement is rejected outright (the old
period is kept), and once the expected pulse window is exceeded the
Pixel Clock output idles instead of emitting on a stale period. -/
theorem C6_reject_and_idle (minP maxP old p : Nat)
    (hlo : minP ≤ old) (hhi : old ≤ maxP) :
    (minP ≤ acceptPeriod minP maxP old p ∧
      acceptPeriod minP maxP old p ≤ maxP) ∧
    (¬ (minP ≤ p ∧ p ≤ maxP) → acceptPeriod minP maxP old p = old) ∧
    (∀ t w px, w < t → pixelClockOutput t w px = DacOut.idle) := by
  refine ⟨?_, ?_, ?_⟩
  · unfold acceptPeriod
    by_cases h : minP ≤ p ∧ p ≤ maxP
    · simp [h]
    · simp [h]
      exact ⟨hlo, hhi⟩
  · intro h
    simp [acceptPeriod, h]
  · intro t w px hw
    have : ¬ t ≤ w := by omega
    simp [pixelClockOutput, this]

/-- Claim C6 witness: bounds 100..100000 with held period 1000, a
near-zero measured period 0 is rejected, and at 600 µs past a 500 µs
window the output idles. -/
theorem C6_reject_and_idle_witness :
    (100 ≤ acceptPeriod 100 100000 1000 0 ∧
      acceptPeriod 100 100000 1000 0 ≤ 100000) ∧
    (¬ ((100 : Nat) ≤ 0 ∧ (0 : Nat) ≤ 100000) →
      acceptPeriod 100 100000 1000 0 = 1000) ∧
    pixelClockOutput 600 500 ⟨1, 2, 3⟩ = DacOut.idle := by
  have h := C6_reject_and_idle 100 100000 1000 0 (by decide) (by decide)
  exact ⟨h.1, h.2.1, h.2.2 600 500 ⟨1, 2, 3⟩ (by decide)⟩

/-- Claim C7: starting from a state whose active region is fully
written, a wraparound swap never exposes an unwritten region — the new
active region is fully written — and when the loader has not finished
the standby fill the swap does not happen at all: the previous active
region (same startpix) is re-displayed.  The loader finishing a fill
also preserves the active region and its fully-written status. -/
theorem C7_swap_safety (s : BufState) (h : s.activeComplete = true) :
    (swapAtWrap s).activeComplete = true ∧
    (s.standbyComplete = false → swapAtWrap s = s) ∧
    (loaderFinish s).activeComplete = true ∧
    (loaderFinish s).startpix = s.startpix := by
  refine ⟨?_, ?_, ?_, ?_⟩
  · unfold swapAtWrap
    by_cases hs : s.standbyComplete <;> simp [hs, h]
  · intro hs
    simp [swapAtWrap, hs]
  · simp [loaderFinish, h]
  · simp [loaderFinish]

/-- Claim C7 witness: the theorem at a not-ready state (standby fill
incomplete): no swap happens and the active region stays complete. -/
theorem C7_swap_safety_witness :
    (swapAtWrap ⟨0, false, true⟩).activeComplete = true ∧
    ((false : Bool) = false → swapAtWrap ⟨0, false, true⟩ = ⟨0, false, true⟩) :=
  ⟨(C7_swap_safety ⟨0, false, true⟩ rfl).1,
   (C7_swap_safety ⟨0, false, true⟩ rfl).2.1⟩

/-- Claim C8: for every frame record written into a half-buffer by the
loader, reading any pixel p < pixelsframe back through the Pixel Clock
and the DAC Output Mapper yields exactly the three channel bytes of the
stored record, modulo channel clamping. -/
theorem C8_round_trip (buf stored : Nat → Nat) (base p : Nat)
    (hp : p < pixelsframe) :
    dacWrite (readPixel (loadFrame buf base stored) base p) =
      (dacClamp (stored (3 * p)), dacClamp (stored (3 * p + 1)),
        dacClamp (stored (3 * p + 2))) := by
  have h3 : 3 * p + 2 < FRAMESIZE := by
    unfold FRAMESIZE
    unfold pixelsframe at hp
    omega
  unfold dacWrite readPixel loadFrame
  have c1 : base ≤ base + 3 * p ∧ base + 3 * p < base + FRAMESIZE := by omega
  have c2 : base ≤ base + 3 * p + 1 ∧ base + 3 * p + 1 < base + FRAMESIZE := by
    omega
  have c3 : base ≤ base + 3 * p + 2 ∧ base + 3 * p + 2 < base + FRAMESIZE := by
    omega
  simp only [c1, c2, c3, if_pos]
  have e1 : base + 3 * p - base = 3 * p := by omega
  have e2 : base + 3 * p + 1 - base = 3 * p + 1 := by omega
  have e3 : base + 3 * p + 2 - base = 3 * p + 2 := by omega
  rw [e1, e2, e3]
  simp

/-- Claim C8 witness: the round trip at base = HALFBUF, pixel 5, with a
zero buffer and the identity record. -/
theorem C8_round_trip_witness :
    dacWrite (readPixel (loadFrame (fun _ => 0) HALFBUF (fun i => i)) HALFBUF 5) =
      (dacClamp 15, dacClamp 16, dacClamp 17) :=
  C8_round_trip (fun _ => 0) (fun i => i) HALFBUF 5 (by decide)

/-- Claim C9: the phase offset adjust_cycles starts at the configured
value 94 and no engine event changes it — it is never recomputed from
measurements at runtime. -/
theorem C9_adjust_cycles_constant :
    initGlobals.adjust_cycles = 94 ∧
    ∀ op g, (applyOp op g).adjust_cycles = g.adjust_cycles := by
  refine ⟨rfl, ?_⟩
  intro op g
  cases op <;> rfl

end Nipkov
